import Mathlib

/-!
Verification of the MBCC mood-tracking server core
(`packages/server/src/index.ts`) against its natural-language
specification.  The TypeScript source is shallowly embedded below:
pure fragments become Lean functions, the stateful fragments
(rate-limit map, mood ledger, lazy pipeline initialization) become
explicit state passing or small step relations, and JavaScript
primitives (`parseInt`, `Array.prototype.slice`, `String.prototype.trim`,
`Math.round`, truthiness of `x || d`) are modelled explicitly.
-/

set_option autoImplicit false

namespace MBCC

universe u

/-! ## JavaScript primitive models -/

/-- Characters treated as whitespace by JS `trim` / `parseInt`
(space, tab, LF, CR, VT, FF, NBSP, BOM; exotic Unicode spaces are
abstracted away). -/
def isJsWhitespace (c : Char) : Bool :=
  c == ' ' || c == '\t' || c == '\n' || c == '\r' ||
  c.toNat == 11 || c.toNat == 12 || c.toNat == 160 || c.toNat == 65279

/-- JS `String.prototype.trim`: strip leading and trailing whitespace. -/
def jsTrim (s : String) : String :=
  String.mk (((s.toList.dropWhile isJsWhitespace).reverse.dropWhile isJsWhitespace).reverse)

/-- JS `String.prototype.toLowerCase` (ASCII case mapping suffices for the
labels the collaborator emits). -/
def jsToLower (s : String) : String :=
  String.mk (s.toList.map Char.toLower)

/-- Contiguous-sublist check on character lists. -/
def charsContain (sub : List Char) : List Char → Bool
  | [] => sub.isEmpty
  | c :: rest => sub.isPrefixOf (c :: rest) || charsContain sub rest

/-- JS `String.prototype.includes`: substring containment. -/
def jsIncludes (s sub : String) : Bool :=
  charsContain sub.toList s.toList

/-- JS `Math.round` on rationals: round half toward positive infinity. -/
def jsRound (x : ℚ) : ℤ := ⌊x + 1/2⌋

/-- Value of one character as a digit in the given radix, if it is one. -/
def digitValue (radix : Nat) (c : Char) : Option Nat :=
  let v : Nat :=
    if '0' ≤ c ∧ c ≤ '9' then c.toNat - '0'.toNat
    else if 'a' ≤ c ∧ c ≤ 'z' then c.toNat - 'a'.toNat + 10
    else if 'A' ≤ c ∧ c ≤ 'Z' then c.toNat - 'A'.toNat + 10
    else radix
  if v < radix then some v else none

/-- Accumulate the longest digit prefix, stopping at the first non-digit. -/
def parseDigitsGo (radix : Nat) : List Char → Nat → Nat
  | [], acc => acc
  | c :: rest, acc =>
    match digitValue radix c with
    | none => acc
    | some v => parseDigitsGo radix rest (acc * radix + v)

/-- Parse the longest digit prefix; `none` when there is no leading digit
(JS `parseInt` yields `NaN` in that case). -/
def parseDigits (radix : Nat) : List Char → Option Nat
  | [] => none
  | c :: rest =>
    match digitValue radix c with
    | none => none
    | some v => some (parseDigitsGo radix rest v)

/-- JS `parseInt(s)` (radix unspecified): skip whitespace, optional sign,
auto-detect a `0x`/`0X` hex prefix, parse the longest digit run.
`none` models `NaN`. -/
def jsParseIntStr (s : String) : Option ℤ :=
  let cs := s.toList.dropWhile isJsWhitespace
  let signed : ℤ × List Char :=
    match cs with
    | '-' :: r => (-1, r)
    | '+' :: r => (1, r)
    | _ => (1, cs)
  match signed.2 with
  | '0' :: 'x' :: r => (parseDigits 16 r).map (fun n => signed.1 * n)
  | '0' :: 'X' :: r => (parseDigits 16 r).map (fun n => signed.1 * n)
  | _ => (parseDigits 10 signed.2).map (fun n => signed.1 * n)

/-- `parseInt(q)` on an optional query parameter: an absent parameter is
`undefined`, and `parseInt(String(undefined))` is `NaN`. -/
def jsParseInt (q : Option String) : Option ℤ :=
  match q with
  | none => none
  | some s => jsParseIntStr s

/-- JS `v || d` for a number `v` that may be `NaN`: `NaN`, `0` and `-0`
are falsy, every other number is truthy. -/
def jsOrDefault (v : Option ℤ) (d : ℤ) : ℤ :=
  match v with
  | none => d
  | some x => if x = 0 then d else x

/-- JS `Array.prototype.slice(start, stop)`: negative indices count from
the end, indices are clamped to the array bounds, and an empty slice is
returned when the effective start is at or past the effective stop. -/
def jsSlice {α : Type u} (l : List α) (start stop : ℤ) : List α :=
  let len : ℤ := l.length
  let s : ℤ := if start < 0 then max (len + start) 0 else min start len
  let e : ℤ := if stop < 0 then max (len + stop) 0 else min stop len
  (l.drop s.toNat).take (e - s).toNat

/-! ## Data model (index.ts lines 13-35) -/

/-- Normalized sentiment label. -/
inductive Sentiment where
  | positive
  | negative
deriving DecidableEq, Repr

/-- A stored mood entry (interface MoodEntry, lines 23-29). -/
structure MoodEntry where
  id : String
  text : String
  sentiment : Sentiment
  confidence : ℚ
  timestamp : String
deriving DecidableEq, Repr

/-- Response body of GET /api/moods (lines 337-342). -/
structure MoodsResponse where
  moods : List MoodEntry
  total : Nat
  limit : ℤ
  offset : ℤ
deriving DecidableEq, Repr

/-! ## GET /api/moods pagination (lines 328-343)

The handler computes
`limit = parseInt(req.query.limit) || 50`,
`offset = parseInt(req.query.offset) || 0`, then
`moodEntries.slice().reverse().slice(offset, offset + limit)`. -/

/-- The GET /api/moods handler as a pure function of the current ledger
and the raw query parameters. -/
def listMoods (ledger : List MoodEntry) (limitQ offsetQ : Option String) :
    MoodsResponse :=
  let limit := jsOrDefault (jsParseInt limitQ) 50
  let offset := jsOrDefault (jsParseInt offsetQ) 0
  { moods := jsSlice ledger.reverse offset (offset + limit)
    total := ledger.length
    limit := limit
    offset := offset }

/-- A concrete two-entry ledger used for concrete evaluations. -/
def demoLedger : List MoodEntry :=
  [ { id := "mood_a", text := "great day", sentiment := .positive,
      confidence := 99/100, timestamp := "t1" },
    { id := "mood_b", text := "bad day", sentiment := .negative,
      confidence := 97/100, timestamp := "t2" } ]

/-- Claim C1 (code_bug): the claim (and the repository's own test
`moods.test.ts`) say `limit=0` is echoed back as `limit=0` with an empty
`moods` array, and that negative `limit`/`offset` are replaced by the
defaults.  The code computes `parseInt(...) || 50`, so `0` is falsy and is
replaced by the default `50` (echoed as such, returning up to 50 entries),
while a negative limit is truthy, is echoed unchanged, and is passed
through to `Array.prototype.slice` end-relative semantics.  Only a
non-numeric parameter actually receives the default. -/
theorem c1_code_bug :
    (listMoods [] (some "0") (some "0")).limit = 50 ∧
    (listMoods demoLedger (some "0") (some "0")).moods ≠ [] ∧
    (listMoods demoLedger (some "-1") none).limit = -1 ∧
    (listMoods demoLedger (some "-1") none).moods.length = 1 ∧
    (listMoods demoLedger (some "abc") none).limit = 50 := by
  decide

/-! ## Input validation (validateSentimentInput, lines 104-135)

The middleware checks, in order:
`!text || typeof text !== 'string'`, then `text.trim().length === 0`,
then `text.length > 1000`.  The request-body field is modelled as an
inductive: absent (`undefined`), present but not a string, or a string
(among strings only the empty string is JS-falsy). -/

/-- The `text` field of a request body as seen by the validator. -/
inductive BodyText where
  | absent
  | nonString
  | str (s : String)
deriving DecidableEq, Repr

/-- The validation middleware: `some msg` is a 400 Validation Error
response with that message, `none` means the request passes on to the
route handler. -/
def validateSentimentInput (b : BodyText) : Option String :=
  match b with
  | .str s =>
    if s = "" then some "Text field is required and must be a string"
    else if jsTrim s = "" then some "Text cannot be empty"
    else if 1000 < s.length then some "Text must be less than 1000 characters"
    else none
  | _ => some "Text field is required and must be a string"

/-- Claim C6 (confirmed): POST /api/sentiment and POST /api/moods reject
with 400 Validation exactly when the text field is absent or not a string,
or its trimmed length is 0, or its untrimmed length exceeds 1000; any one
violation suffices and a request violating none passes. -/
theorem c6_theorem (b : BodyText) :
    validateSentimentInput b ≠ none ↔
      (b = BodyText.absent ∨ b = BodyText.nonString ∨
        ∃ s, b = BodyText.str s ∧ (jsTrim s = "" ∨ 1000 < s.length)) := by
  cases b with
  | absent => simp [validateSentimentInput]
  | nonString => simp [validateSentimentInput]
  | str s =>
    simp only [validateSentimentInput]
    split_ifs with h1 h2 h3
    · simp only [ne_eq, reduceCtorEq, not_false_iff, true_iff]
      exact Or.inr (Or.inr ⟨s, rfl, Or.inl (by rw [h1]; rfl)⟩)
    · simp only [ne_eq, reduceCtorEq, not_false_iff, true_iff]
      exact Or.inr (Or.inr ⟨s, rfl, Or.inl h2⟩)
    · simp only [ne_eq, reduceCtorEq, not_false_iff, true_iff]
      exact Or.inr (Or.inr ⟨s, rfl, Or.inr h3⟩)
    · refine ⟨fun h => absurd rfl h, ?_⟩
      rintro (h | h | ⟨s', hs', hbad⟩)
      · cases h
      · cases h
      · cases hs'
        rcases hbad with hb | hb
        · exact absurd hb h2
        · exact absurd hb h3

/-! ## Sentiment analysis, post-Ready path (analyzeSentiment, lines 83-94)

The collaborator (`sentimentPipeline`) returns `[{label, score}]`; the
service lowercases the label, compares it to "positive", rounds the score
to two decimals via `Math.round(score * 100) / 100`, and echoes the
trimmed text.  (The lazy-initialization preamble of `analyzeSentiment`,
lines 79-81, is modelled separately as a step machine below.) -/

/-- Output of the inference collaborator for one input. -/
structure PipelineOutput where
  label : String
  score : ℚ
deriving DecidableEq, Repr

/-- Response of POST /api/sentiment (interface SentimentResponse). -/
structure SentimentResponse where
  sentiment : Sentiment
  confidence : ℚ
  text : String
deriving DecidableEq, Repr

/-- The post-Ready body of `analyzeSentiment`, given the collaborator's
successful output. -/
def analyzeSentiment (text : String) (out : PipelineOutput) : SentimentResponse :=
  { sentiment := if jsToLower out.label = "positive" then .positive else .negative
    confidence := (jsRound (out.score * 100) : ℚ) / 100
    text := jsTrim text }

/-- Case-insensitive string equality, as the spec phrases the label test. -/
def caseInsensitiveEq (a b : String) : Prop :=
  jsToLower a = jsToLower b

/-- Rounding to two decimal places, as the spec phrases it. -/
def roundToTwoDecimals (x : ℚ) : ℚ := (⌊x * 100 + 1/2⌋ : ℚ) / 100

/-- Claim C7 (confirmed): once Ready, analyze yields label positive exactly
when the collaborator label case-insensitively equals "positive" (anything
else maps to negative), confidence is the score rounded to two decimals,
and the text field is the trimmed input; concretely, label POSITIVE with
score 0.91 yields sentiment positive with confidence 0.91. -/
theorem c7_theorem :
    (∀ text out,
      ((analyzeSentiment text out).sentiment = Sentiment.positive ↔
        caseInsensitiveEq out.label "positive") ∧
      (analyzeSentiment text out).confidence = roundToTwoDecimals out.score ∧
      (analyzeSentiment text out).text = jsTrim text) ∧
    analyzeSentiment "Great" { label := "POSITIVE", score := 91/100 } =
      { sentiment := .positive, confidence := 91/100, text := "Great" } := by
  constructor
  · intro text out
    refine ⟨?_, rfl, rfl⟩
    have hpos : jsToLower "positive" = "positive" := by decide
    unfold caseInsensitiveEq
    rw [hpos]
    by_cases h : jsToLower out.label = "positive"
    · simp [analyzeSentiment, h]
    · simp [analyzeSentiment, h]
  · have hlabel : jsToLower "POSITIVE" = "positive" := by decide
    have htrim : jsTrim "Great" = "Great" := by decide
    have hconf : (jsRound (91 : ℚ) : ℚ) / 100 = 91/100 := by
      norm_num [jsRound]
    simp [analyzeSentiment, hlabel, htrim, hconf]

/-! ## Error taxonomy (errorHandler, lines 226-248)

The error boundary classifies a thrown `Error` by scanning its message:
containing "Validation" gives 400, containing "unavailable" gives 503,
anything else gives 500 with the generic body
("Internal Server Error", "An unexpected error occurred"). -/

/-- The two failures the sentiment path can throw: initialization failure
(line 71) and post-Ready collaborator failure (line 97). -/
inductive SentimentFailure where
  | initFailed
  | analyzeFailed
deriving DecidableEq, Repr

/-- The `Error.message` thrown on each failure (source string constants). -/
def failureMessage : SentimentFailure → String
  | .initFailed => "Sentiment analysis service unavailable"
  | .analyzeFailed => "Failed to analyze sentiment"

/-- The status code chosen by `errorHandler` (lines 240-241). -/
def errorStatus (msg : String) : Nat :=
  if jsIncludes msg "Validation" then 400
  else if jsIncludes msg "unavailable" then 503
  else 500

/-- The `(error, message)` body fields chosen by `errorHandler`
(lines 243-247). -/
def errorBody (msg : String) : String × String :=
  (if errorStatus msg = 500 then "Internal Server Error" else msg,
   if errorStatus msg = 500 then "An unexpected error occurred" else msg)

/-- Claim C8 (confirmed): a collaborator error during a post-Ready analyze
call is classified Internal (500) with the generic non-leaking body, never
ServiceUnavailable; among the sentiment-path failures, 503 is produced
exactly for pipeline initialization failure. -/
theorem c8_theorem :
    (∀ e : SentimentFailure,
      errorStatus (failureMessage e) = 503 ↔ e = SentimentFailure.initFailed) ∧
    errorStatus (failureMessage .analyzeFailed) = 500 ∧
    errorBody (failureMessage .analyzeFailed) =
      ("Internal Server Error", "An unexpected error occurred") := by
  refine ⟨?_, by decide, by decide⟩
  intro e
  cases e <;> decide

/-! ## MoodLedger append (POST /api/moods handler, lines 301-325)

On success the handler pushes the new entry and then trims:
`if (moodEntries.length > 1000) moodEntries.splice(0, moodEntries.length - 1000)`
(`splice(0, k)` removes the first `k` elements, i.e. `List.drop k`). -/

/-- One ledger append as performed by the handler: push, then trim the
front down to the 1000 most recent entries. -/
def appendMoodEntry (ledger : List MoodEntry) (e : MoodEntry) : List MoodEntry :=
  let grown := ledger ++ [e]
  if 1000 < grown.length then grown.drop (grown.length - 1000) else grown

/-- The ledger obtained by submitting a sequence of entries, starting from
the empty ledger the process boots with. -/
def appendAll (es : List MoodEntry) : List MoodEntry :=
  es.foldl appendMoodEntry []

/-- The whole POST /api/moods handler: `analyzeSentiment` is awaited
first; only on its success is an entry built and appended.  On failure
control jumps to the catch block and `next(error)` hands the untouched
ledger to the error boundary.  Returns the new ledger and the HTTP
status. -/
def submitMood (ledger : List MoodEntry)
    (analysis : Except SentimentFailure SentimentResponse)
    (freshId nowIso : String) : List MoodEntry × Nat :=
  match analysis with
  | .error e => (ledger, errorStatus (failureMessage e))
  | .ok r =>
    (appendMoodEntry ledger
      { id := freshId, text := r.text, sentiment := r.sentiment,
        confidence := r.confidence, timestamp := nowIso }, 201)

/-- Claim C9 (confirmed): submit-mood is atomic with respect to the
ledger: on every failing sentiment analysis the ledger is returned
unchanged — nothing is appended on any failure path — and no 201 is
produced. -/
theorem c9_theorem (ledger : List MoodEntry) (e : SentimentFailure)
    (freshId nowIso : String) :
    (submitMood ledger (.error e) freshId nowIso).1 = ledger ∧
    (submitMood ledger (.error e) freshId nowIso).2 ≠ 201 := by
  have h : submitMood ledger (.error e) freshId nowIso
      = (ledger, errorStatus (failureMessage e)) := rfl
  rw [h]
  refine ⟨rfl, ?_⟩
  show errorStatus (failureMessage e) ≠ 201
  cases e <;> decide

/-- Appending to the trimmed tail of a ledger is the same as trimming
after appending: one step of the push-then-splice discipline preserves
the last-1000 characterization. -/
lemma appendMoodEntry_drop (es : List MoodEntry) (e : MoodEntry) :
    appendMoodEntry (es.drop (es.length - 1000)) e
      = (es ++ [e]).drop (es.length + 1 - 1000) := by
  simp only [appendMoodEntry]
  by_cases h : es.length ≤ 999
  · have h0 : es.length - 1000 = 0 := by omega
    have h1 : es.length + 1 - 1000 = 0 := by omega
    rw [h0, List.drop_zero, h1, List.drop_zero, if_neg]
    simp
    omega
  · push_neg at h
    have hal : (es.drop (es.length - 1000)).length = 1000 := by
      rw [List.length_drop]; omega
    have hgrow : (es.drop (es.length - 1000) ++ [e]).length = 1001 := by
      simp [hal]
    rw [if_pos (by rw [hgrow]; omega), hgrow]
    have h1 : (1001 : Nat) - 1000 = 1 := by norm_num
    rw [h1, List.drop_append_of_le_length (by omega : 1 ≤ (es.drop (es.length - 1000)).length),
      List.drop_drop,
      List.drop_append_of_le_length (by omega : es.length + 1 - 1000 ≤ es.length)]
    have h2 : es.length - 1000 + 1 = es.length + 1 - 1000 := by omega
    rw [h2]

/-- Claim C4 (confirmed): after any sequence of N submit-mood appends the
ledger holds exactly the most recent min(N, 1000) entries in insertion
order, its size is min(N, 1000), and after every intermediate mutation
(every split of the sequence into a prefix p and a remainder q) the size
never exceeded 1000. -/
theorem c4_theorem (es : List MoodEntry) :
    (appendAll es).length = min es.length 1000 ∧
    appendAll es = es.drop (es.length - 1000) ∧
    ∀ p q : List MoodEntry, es = p ++ q → (appendAll p).length ≤ 1000 := by
  have key : ∀ l : List MoodEntry, appendAll l = l.drop (l.length - 1000) := by
    intro l
    induction l using List.reverseRecOn with
    | nil => rfl
    | append_singleton es e ih =>
      unfold appendAll at ih ⊢
      rw [List.foldl_append, List.foldl_cons, List.foldl_nil, ih, appendMoodEntry_drop]
      have hlen : (es ++ [e]).length = es.length + 1 := by simp
      rw [hlen]
  refine ⟨?_, key es, ?_⟩
  · rw [key es, List.length_drop]; omega
  · intro p q hpq
    rw [key p, List.length_drop]; omega

/-- Witness for C4 at a concrete two-entry append sequence. -/
theorem c4_witness :
    (appendAll demoLedger).length = min demoLedger.length 1000 ∧
    appendAll demoLedger = demoLedger.drop (demoLedger.length - 1000) ∧
    (appendAll demoLedger).length ≤ 1000 :=
  ⟨(c4_theorem demoLedger).1, (c4_theorem demoLedger).2.1,
   (c4_theorem demoLedger).2.2 demoLedger [] (by simp)⟩

/-! ## Rate limiting (rateLimitMiddleware, lines 185-221)

`rateLimitStore` is a `Map` from client id to `{count, resetTime}`; the
middleware first deletes every expired entry (`value.resetTime < now`),
then either creates a fresh record with `count=1`, denies when
`count >= rateLimitMax`, or increments.  The map is modelled as an
association list in insertion order (JS `Map` iteration order);
`Map.set` on an existing key overwrites in place. -/

/-- One per-client record of the rate-limit store. -/
structure RateRecord where
  count : Nat
  resetTime : ℤ
deriving DecidableEq, Repr

/-- The environment-derived configuration (lines 44-45). -/
structure Config where
  rateLimitWindow : ℤ
  rateLimitMax : Nat
deriving DecidableEq, Repr

/-- The rate-limit store: client id to record, in insertion order. -/
abbrev Store : Type := List (String × RateRecord)

/-- `Map.get`. -/
def storeGet (st : Store) (k : String) : Option RateRecord :=
  (List.find? (fun kv => kv.1 == k) st).map Prod.snd

/-- `Map.set`: overwrite in place when the key exists, else append. -/
def storeSet (st : Store) (k : String) (v : RateRecord) : Store :=
  if (storeGet st k).isSome then
    st.map (fun kv => if kv.1 = k then (k, v) else kv)
  else st ++ [(k, v)]

/-- The opportunistic sweep (lines 193-197): delete every record whose
window has expired, i.e. whose `resetTime < now`. -/
def cleanupStore (st : Store) (now : ℤ) : Store :=
  List.filter (fun kv => !decide (kv.2.resetTime < now)) st

/-- The middleware body for one request: returns the store after the call
and whether the request was admitted (`true` means `next()` ran; `false`
means a 429 response was sent). -/
def rateLimitMiddleware (st : Store) (clientId : String) (now : ℤ)
    (cfg : Config) : Store × Bool :=
  let st1 := cleanupStore st now
  match storeGet st1 clientId with
  | none => (storeSet st1 clientId ⟨1, now + cfg.rateLimitWindow⟩, true)
  | some d =>
    if d.resetTime < now then
      (storeSet st1 clientId ⟨1, now + cfg.rateLimitWindow⟩, true)
    else if cfg.rateLimitMax ≤ d.count then
      (st1, false)
    else
      (storeSet st1 clientId ⟨d.count + 1, d.resetTime⟩, true)

/-- A sequence of requests from one client at the given times: final
store and the list of admission outcomes. -/
def rateLimitCalls (st : Store) (clientId : String) (ts : List ℤ)
    (cfg : Config) : Store × List Bool :=
  match ts with
  | [] => (st, [])
  | t :: rest =>
    let stepR := rateLimitMiddleware st clientId t cfg
    let restR := rateLimitCalls stepR.1 clientId rest cfg
    (restR.1, stepR.2 :: restR.2)

/-- First request of an unknown client: fresh record, admitted. -/
lemma rateLimit_fresh (cfg : Config) (c : String) (t : ℤ) :
    rateLimitMiddleware [] c t cfg
      = ([(c, ⟨1, t + cfg.rateLimitWindow⟩)], true) := by
  simp [rateLimitMiddleware, cleanupStore, storeGet, storeSet]

/-- An unexpired client below the ceiling: count incremented, admitted. -/
lemma rateLimit_increment (cfg : Config) (c : String) (cnt : Nat) (rt t : ℤ)
    (hwin : ¬ rt < t) (hcnt : cnt < cfg.rateLimitMax) :
    rateLimitMiddleware [(c, ⟨cnt, rt⟩)] c t cfg
      = ([(c, ⟨cnt + 1, rt⟩)], true) := by
  have hle : ¬ cfg.rateLimitMax ≤ cnt := by omega
  simp [rateLimitMiddleware, cleanupStore, storeGet, storeSet, hwin, hle]

/-- An unexpired client at (or above) the ceiling: denied, store kept. -/
lemma rateLimit_denied (cfg : Config) (c : String) (cnt : Nat) (rt t : ℤ)
    (hwin : ¬ rt < t) (hcnt : cfg.rateLimitMax ≤ cnt) :
    rateLimitMiddleware [(c, ⟨cnt, rt⟩)] c t cfg
      = ([(c, ⟨cnt, rt⟩)], false) := by
  simp [rateLimitMiddleware, cleanupStore, storeGet, storeSet, hwin, hcnt]

/-- A strictly expired record is swept and replaced by a fresh one. -/
lemma rateLimit_expired (cfg : Config) (c : String) (cnt : Nat) (rt t : ℤ)
    (hwin : rt < t) :
    rateLimitMiddleware [(c, ⟨cnt, rt⟩)] c t cfg
      = ([(c, ⟨1, t + cfg.rateLimitWindow⟩)], true) := by
  simp [rateLimitMiddleware, cleanupStore, storeGet, storeSet, hwin]

/-- Consecutive in-window calls below the ceiling are all admitted and
only increment the count. -/
lemma rateLimitCalls_allowed (cfg : Config) (c : String) :
    ∀ (ts : List ℤ) (cnt : Nat) (rt : ℤ),
      (∀ t ∈ ts, ¬ rt < t) → cnt + ts.length ≤ cfg.rateLimitMax →
      rateLimitCalls [(c, ⟨cnt, rt⟩)] c ts cfg
        = ([(c, ⟨cnt + ts.length, rt⟩)], List.replicate ts.length true) := by
  intro ts
  induction ts with
  | nil => intro cnt rt _ _; simp [rateLimitCalls]
  | cons t rest ih =>
    intro cnt rt hwin hcnt
    rw [rateLimitCalls]
    rw [rateLimit_increment cfg c cnt rt t (hwin t (List.mem_cons_self t rest))
      (by simp at hcnt; omega)]
    rw [ih (cnt + 1) rt (fun u hu => hwin u (List.mem_cons_of_mem t hu))
      (by simp at hcnt ⊢; omega)]
    have harith : cnt + 1 + rest.length = cnt + (rest.length + 1) := by omega
    simp [List.replicate_succ, harith]

/-- Claim C5 counterexample: at the exact instant `now = windowResetAt`
the code still treats the record as live (`resetTime < now` is strict), so
an exhausted client is denied rather than given a fresh allowance.  With
ceiling 1 and window 10: a call at t=0 is admitted (resetTime 10), and the
next call at t=10 — where the claim's condition now ≥ windowResetAt holds —
is denied instead of admitted with a fresh record. -/
theorem c5_counterexample :
    rateLimitMiddleware [] "client" 0 ⟨10, 1⟩ = ([("client", ⟨1, 10⟩)], true) ∧
    (10 : ℤ) ≥ 10 ∧
    rateLimitMiddleware [("client", ⟨1, 10⟩)] "client" 10 ⟨10, 1⟩
      = ([("client", ⟨1, 10⟩)], false) := by
  refine ⟨?_, by norm_num, ?_⟩ <;> decide

/-- Claim C5 (corrected): for ceiling k, the first call of a client
creates a fresh record and is Allowed; the following k-1 in-window calls
are Allowed, reaching count k; the (k+1)-th in-window call is Denied and
does not change the store (in particular the count is not incremented);
and once the window has STRICTLY elapsed (now > windowResetAt; at
now = windowResetAt the record is still live), the next call creates a
fresh record with count 1 and is Allowed again. -/
theorem c5_theorem (cfg : Config) (c : String) (ts : List ℤ) (t0 td tf : ℤ)
    (hts : ∀ t ∈ ts, t ≤ t0 + cfg.rateLimitWindow)
    (hk : ts.length + 1 = cfg.rateLimitMax)
    (htd : td ≤ t0 + cfg.rateLimitWindow)
    (htf : t0 + cfg.rateLimitWindow < tf) :
    rateLimitMiddleware [] c t0 cfg
      = ([(c, ⟨1, t0 + cfg.rateLimitWindow⟩)], true) ∧
    rateLimitCalls [(c, ⟨1, t0 + cfg.rateLimitWindow⟩)] c ts cfg
      = ([(c, ⟨cfg.rateLimitMax, t0 + cfg.rateLimitWindow⟩)],
         List.replicate ts.length true) ∧
    rateLimitMiddleware [(c, ⟨cfg.rateLimitMax, t0 + cfg.rateLimitWindow⟩)]
        c td cfg
      = ([(c, ⟨cfg.rateLimitMax, t0 + cfg.rateLimitWindow⟩)], false) ∧
    rateLimitMiddleware [(c, ⟨cfg.rateLimitMax, t0 + cfg.rateLimitWindow⟩)]
        c tf cfg
      = ([(c, ⟨1, tf + cfg.rateLimitWindow⟩)], true) := by
  refine ⟨rateLimit_fresh cfg c t0, ?_, ?_, ?_⟩
  · rw [rateLimitCalls_allowed cfg c ts 1 (t0 + cfg.rateLimitWindow)
      (fun u hu => by have := hts u hu; omega) (by omega)]
    have : 1 + ts.length = cfg.rateLimitMax := by omega
    rw [this]
  · exact rateLimit_denied cfg c cfg.rateLimitMax (t0 + cfg.rateLimitWindow) td
      (by omega) (le_refl _)
  · exact rateLimit_expired cfg c cfg.rateLimitMax (t0 + cfg.rateLimitWindow) tf
      (by omega)

/-- Witness for C5: ceiling 2, window 10, calls at t=0,1 allowed, t=2
denied without increment, t=11 (strictly past the reset at 10) fresh. -/
theorem c5_witness :
    rateLimitMiddleware [] "a" 0 ⟨10, 2⟩ = ([("a", ⟨1, 10⟩)], true) ∧
    rateLimitCalls [("a", ⟨1, 10⟩)] "a" [1] ⟨10, 2⟩
      = ([("a", ⟨2, 10⟩)], List.replicate 1 true) ∧
    rateLimitMiddleware [("a", ⟨2, 10⟩)] "a" 2 ⟨10, 2⟩
      = ([("a", ⟨2, 10⟩)], false) ∧
    rateLimitMiddleware [("a", ⟨2, 10⟩)] "a" 11 ⟨10, 2⟩
      = ([("a", ⟨1, 21⟩)], true) :=
  c5_theorem ⟨10, 2⟩ "a" [1] 0 2 11
    (by intro t ht; simp at ht; subst ht; decide) (by decide) (by decide)
    (by decide)

/-! ## GET /api/health (createApp, lines 268-286)

`createApp` installs `app.use(rateLimitMiddleware)` (line 273) before
registering the `/api/health` route (line 276), so the health check —
like every other route — is reached only when the middleware calls
`next()`.  The handler itself unconditionally responds 200. -/

/-- The GET /api/health request path: run the rate-limit middleware, and
only if admitted run the 200 handler; otherwise the middleware's 429 was
already sent.  Returns the rate-limit store after the request and the
response status. -/
def handleHealth (st : Store) (clientId : String) (now : ℤ)
    (cfg : Config) : Store × Nat :=
  let gate := rateLimitMiddleware st clientId now cfg
  if gate.2 then (gate.1, 200) else (gate.1, 429)

/-- Claim C2 counterexample: a client that has exhausted its quota in the
current window (count 100 = ceiling, window unexpired) receives 429 from
GET /api/health — the health check is NOT exempt from the rate limiter. -/
theorem c2_counterexample :
    handleHealth [("1.2.3.4", ⟨100, 1000⟩)] "1.2.3.4" 500 ⟨900000, 100⟩
      = ([("1.2.3.4", ⟨100, 1000⟩)], 429) := by
  decide

/-- Claim C2 (corrected): GET /api/health passes through the rate limiter
like every route.  A client with no live record is admitted with a 200
but the per-client map IS mutated (a fresh count-1 record is inserted);
a client whose quota is exhausted in the current window receives 429
(with the map merely swept of expired entries). -/
theorem c2_theorem :
    (∀ (st : Store) (ip : String) (now : ℤ) (cfg : Config),
      storeGet (cleanupStore st now) ip = none →
      handleHealth st ip now cfg
        = (storeSet (cleanupStore st now) ip ⟨1, now + cfg.rateLimitWindow⟩,
           200)) ∧
    (∀ (st : Store) (ip : String) (now : ℤ) (cfg : Config) (r : RateRecord),
      storeGet (cleanupStore st now) ip = some r →
      ¬ r.resetTime < now → cfg.rateLimitMax ≤ r.count →
      handleHealth st ip now cfg = (cleanupStore st now, 429)) := by
  constructor
  · intro st ip now cfg h
    simp [handleHealth, rateLimitMiddleware, h]
  · intro st ip now cfg r h hwin hcnt
    simp [handleHealth, rateLimitMiddleware, h, hwin, hcnt]

/-- Witness for C2: a fresh client is admitted but recorded; an exhausted
client is denied. -/
theorem c2_witness :
    handleHealth [] "9.9.9.9" 0 ⟨900000, 100⟩
      = (storeSet (cleanupStore [] 0) "9.9.9.9" ⟨1, 0 + 900000⟩, 200) ∧
    handleHealth [("9.9.9.9", ⟨100, 7⟩)] "9.9.9.9" 5 ⟨900000, 100⟩
      = (cleanupStore [("9.9.9.9", ⟨100, 7⟩)] 5, 429) :=
  ⟨c2_theorem.1 [] "9.9.9.9" 0 ⟨900000, 100⟩ (by decide),
   c2_theorem.2 [("9.9.9.9", ⟨100, 7⟩)] "9.9.9.9" 5 ⟨900000, 100⟩ ⟨100, 7⟩
     (by decide) (by decide) (by decide)⟩

/-! ## Lazy pipeline initialization under concurrency
(analyzeSentiment lines 78-81, initializeSentimentPipeline lines 61-73)

`analyzeSentiment` begins with
`if (!sentimentPipeline) await initializeSentimentPipeline()`, and the
assignment `sentimentPipeline = await pipeline(...)` happens only when
that awaited call resolves.  On the JS event loop each caller therefore
runs two atomic segments: (1) the null check, which — when the pipeline
is unset — starts its own underlying `pipeline(...)` invocation, and
(2) the resumption after the await, which stores the pipeline.  A
schedule is a list of caller indices; each entry runs that caller's next
segment. -/

/-- Program counter of one analyze caller's initialization preamble. -/
inductive CallerPhase where
  /-- about to run the `!sentimentPipeline` check -/
  | start
  /-- has invoked `pipeline(...)` and is awaiting it -/
  | initing
  /-- past the preamble (pipeline observed or stored) -/
  | done
deriving DecidableEq, Repr

/-- Shared state: whether `sentimentPipeline` is set, how many underlying
`pipeline(...)` invocations have been started, and each caller's phase. -/
structure SvcState where
  pipelineSet : Bool
  invocations : Nat
  callers : List CallerPhase
deriving DecidableEq, Repr

/-- Run the next atomic segment of caller `i`. -/
def svcStep (s : SvcState) (i : Nat) : SvcState :=
  match s.callers.get? i with
  | some .start =>
    if s.pipelineSet then { s with callers := s.callers.set i .done }
    else { pipelineSet := s.pipelineSet, invocations := s.invocations + 1,
           callers := s.callers.set i .initing }
  | some .initing =>
    { s with pipelineSet := true, callers := s.callers.set i .done }
  | _ => s

/-- Run a schedule. -/
def svcRun (s : SvcState) (sched : List Nat) : SvcState :=
  sched.foldl svcStep s

/-- State before any call: pipeline unset, no invocations, n callers
about to make their first analyze call. -/
def freshSvc (n : Nat) : SvcState :=
  { pipelineSet := false, invocations := 0,
    callers := List.replicate n .start }

/-- Overwriting the element that follows a given block. -/
lemma set_append_length {α : Type u} :
    ∀ (A : List α) (x : α) (r : List α) (v : α),
      (A ++ x :: r).set A.length v = A ++ v :: r
  | [], _, _, _ => rfl
  | a :: A, x, r, v => by
    simp [List.set_cons_succ, set_append_length A x r v]

/-- Simultaneous-arrival phase 1: every caller still at its null check
sees the pipeline unset and starts its own invocation. -/
lemma svcRun_checks :
    ∀ (m : Nat) (A : List CallerPhase) (inv : Nat),
      svcRun ⟨false, inv, A ++ List.replicate m .start⟩
          (List.range' A.length m)
        = ⟨false, inv + m, A ++ List.replicate m .initing⟩ := by
  intro m
  induction m with
  | zero => intro A inv; simp [svcRun]
  | succ m ih =>
    intro A inv
    rw [List.range'_succ, svcRun, List.foldl_cons]
    have hget : (A ++ List.replicate (m + 1) CallerPhase.start).get? A.length
        = some .start := by
      rw [List.get?_append_right (le_refl A.length)]
      simp [List.replicate_succ]
    have hset : (A ++ List.replicate (m + 1) CallerPhase.start).set A.length
          CallerPhase.initing
        = (A ++ [CallerPhase.initing]) ++ List.replicate m .start := by
      rw [List.replicate_succ, set_append_length]
      simp
    rw [show svcStep ⟨false, inv, A ++ List.replicate (m + 1) .start⟩ A.length
        = ⟨false, inv + 1, (A ++ [CallerPhase.initing]) ++ List.replicate m .start⟩ by
      unfold svcStep
      rw [hget]
      show (⟨false, inv + 1,
        (A ++ List.replicate (m + 1) CallerPhase.start).set A.length
          CallerPhase.initing⟩ : SvcState) = _
      rw [hset]]
    have hlen : A.length + 1 = (A ++ [CallerPhase.initing]).length := by simp
    rw [hlen, ← svcRun, ih (A ++ [CallerPhase.initing]) (inv + 1)]
    simp [List.replicate_succ, Nat.add_assoc, Nat.add_comm 1 m]

/-- Phase 2: every awaiting caller resumes, stores the pipeline and
finishes; the invocation count no longer changes. -/
lemma svcRun_resumes :
    ∀ (m : Nat) (A : List CallerPhase) (inv : Nat) (b : Bool),
      svcRun ⟨b, inv, A ++ List.replicate m .initing⟩
          (List.range' A.length m)
        = ⟨b || decide (0 < m), inv, A ++ List.replicate m .done⟩ := by
  intro m
  induction m with
  | zero => intro A inv b; simp [svcRun]
  | succ m ih =>
    intro A inv b
    rw [List.range'_succ, svcRun, List.foldl_cons]
    have hget : (A ++ List.replicate (m + 1) CallerPhase.initing).get? A.length
        = some .initing := by
      rw [List.get?_append_right (le_refl A.length)]
      simp [List.replicate_succ]
    have hset : (A ++ List.replicate (m + 1) CallerPhase.initing).set A.length
          CallerPhase.done
        = (A ++ [CallerPhase.done]) ++ List.replicate m .initing := by
      rw [List.replicate_succ, set_append_length]
      simp
    rw [show svcStep ⟨b, inv, A ++ List.replicate (m + 1) .initing⟩ A.length
        = ⟨true, inv, (A ++ [CallerPhase.done]) ++ List.replicate m .initing⟩ by
      unfold svcStep
      rw [hget]
      show (⟨true, inv,
        (A ++ List.replicate (m + 1) CallerPhase.initing).set A.length
          CallerPhase.done⟩ : SvcState) = _
      rw [hset]]
    have hlen : A.length + 1 = (A ++ [CallerPhase.done]).length := by simp
    rw [hlen, ← svcRun, ih (A ++ [CallerPhase.done]) inv true]
    simp [List.replicate_succ]

/-- Claim C3 counterexample: ten analyze calls arriving before the
service is Ready, interleaved so that all ten null checks run before any
initialization resolves (the simultaneous-arrival schedule), start TEN
underlying pipeline invocations, not exactly one. -/
theorem c3_counterexample :
    (svcRun (freshSvc 10) (List.range 10 ++ List.range 10)).invocations = 10 ∧
    (svcRun (freshSvc 10) (List.range 10 ++ List.range 10)).invocations ≠ 1 := by
  constructor <;> decide

/-- Claim C3 (corrected): initialization is lazy but NOT single-flight.
Under the simultaneous-arrival schedule (all n first callers perform
their null check before any initialization completes), every one of the
n callers starts its own underlying pipeline invocation — n invocations
in total, one per caller — after which all callers finish and the
pipeline is set (for n ≥ 1). -/
theorem c3_theorem (n : Nat) :
    svcRun (freshSvc n) (List.range n ++ List.range n)
      = { pipelineSet := decide (0 < n), invocations := n,
          callers := List.replicate n .done } := by
  have hsplit : svcRun (freshSvc n) (List.range n ++ List.range n)
      = svcRun (svcRun (freshSvc n) (List.range n)) (List.range n) := by
    simp [svcRun, List.foldl_append]
  rw [hsplit]
  have h1 : svcRun (freshSvc n) (List.range n)
      = ⟨false, n, [] ++ List.replicate n .initing⟩ := by
    have := svcRun_checks n [] 0
    simpa [freshSvc, List.range_eq_range'] using this
  rw [h1]
  have h2 := svcRun_resumes n [] n false
  simpa [List.range_eq_range'] using h2

/-! ## GET /api/moods leaves the ledger untouched (lines 328-343)

To state the frame condition we model array identity: a heap of array
cells, with the global `moodEntries` living at some address.
`Array.prototype.slice()` allocates a NEW cell holding a copy, while
`Array.prototype.reverse()` reverses a cell in place.  The handler
computes `moodEntries.slice().reverse().slice(offset, offset + limit)`,
so the in-place reversal hits the fresh copy, never the ledger cell. -/

/-- A heap of JS arrays of mood entries; addresses are list positions. -/
structure Heap where
  cells : List (List MoodEntry)
deriving DecidableEq, Repr

/-- Dereference an address (absent addresses read as an empty array). -/
def heapGet (h : Heap) (a : Nat) : List MoodEntry :=
  (h.cells.get? a).getD []

/-- `arr.slice()`: allocate a fresh cell holding a copy of `arr`; returns
the new heap and the fresh address. -/
def allocCopy (h : Heap) (a : Nat) : Heap × Nat :=
  (⟨h.cells ++ [heapGet h a]⟩, h.cells.length)

/-- `arr.reverse()`: reverse the cell at `a` in place. -/
def reverseAt (h : Heap) (a : Nat) : Heap :=
  ⟨h.cells.set a (heapGet h a).reverse⟩

/-- The GET /api/moods handler against the heap: copy the ledger cell,
reverse the copy in place, then slice the copy; `total` re-reads the
ledger cell.  Returns the heap after the request and the response. -/
def listMoodsOnHeap (h : Heap) (ledgerAddr : Nat)
    (limitQ offsetQ : Option String) : Heap × MoodsResponse :=
  (reverseAt (allocCopy h ledgerAddr).1 (allocCopy h ledgerAddr).2,
   { moods := jsSlice
       (heapGet (reverseAt (allocCopy h ledgerAddr).1 (allocCopy h ledgerAddr).2)
         (allocCopy h ledgerAddr).2)
       (jsOrDefault (jsParseInt offsetQ) 0)
       (jsOrDefault (jsParseInt offsetQ) 0 + jsOrDefault (jsParseInt limitQ) 50)
     total := (heapGet (reverseAt (allocCopy h ledgerAddr).1
       (allocCopy h ledgerAddr).2) ledgerAddr).length
     limit := jsOrDefault (jsParseInt limitQ) 50
     offset := jsOrDefault (jsParseInt offsetQ) 0 })

/-- The copy-then-reverse prefix of the handler only appends a new cell:
the original cells are untouched. -/
lemma reverseAt_grow (h : Heap) (a : Nat) :
    reverseAt ⟨h.cells ++ [heapGet h a]⟩ h.cells.length
      = (⟨h.cells ++ [(heapGet h a).reverse]⟩ : Heap) := by
  have h1get : (h.cells ++ [heapGet h a]).get? h.cells.length
      = some (heapGet h a) := by
    rw [List.get?_append_right (le_refl _)]
    simp
  have hg2 : heapGet ⟨h.cells ++ [heapGet h a]⟩ h.cells.length = heapGet h a := by
    simp [heapGet, h1get]
  show (⟨(h.cells ++ [heapGet h a]).set h.cells.length
      (heapGet ⟨h.cells ++ [heapGet h a]⟩ h.cells.length).reverse⟩ : Heap) = _
  rw [hg2, set_append_length h.cells (heapGet h a) [] (heapGet h a).reverse]

/-- Claim C10 (confirmed): the list-moods read never mutates the ledger —
for every heap, ledger address and query, the ledger cell is identical
before and after the request (the handler reverses a fresh copy, not the
ledger), and the response agrees with the pure pagination function of the
ledger's value. -/
theorem c10_theorem (h : Heap) (a : Nat) (limitQ offsetQ : Option String)
    (ha : a < h.cells.length) :
    (listMoodsOnHeap h a limitQ offsetQ).1.cells.get? a = h.cells.get? a ∧
    (listMoodsOnHeap h a limitQ offsetQ).2
      = listMoods (heapGet h a) limitQ offsetQ := by
  have hgetrev : heapGet ⟨h.cells ++ [(heapGet h a).reverse]⟩ h.cells.length
      = (heapGet h a).reverse := by
    simp [heapGet]
  have hgeta : heapGet ⟨h.cells ++ [(heapGet h a).reverse]⟩ a = heapGet h a := by
    show (((h.cells ++ [(heapGet h a).reverse]).get? a).getD []) = heapGet h a
    rw [List.get?_append ha]
    rfl
  have heq : listMoodsOnHeap h a limitQ offsetQ
      = (⟨h.cells ++ [(heapGet h a).reverse]⟩,
         listMoods (heapGet h a) limitQ offsetQ) := by
    unfold listMoodsOnHeap
    simp only [allocCopy]
    rw [reverseAt_grow, hgetrev, hgeta]
    rfl
  rw [heq]
  exact ⟨List.get?_append ha, rfl⟩

/-- Witness for C10 at a concrete one-cell heap holding the demo ledger. -/
theorem c10_witness :
    (listMoodsOnHeap ⟨[demoLedger]⟩ 0 none none).1.cells.get? 0
      = (⟨[demoLedger]⟩ : Heap).cells.get? 0 ∧
    (listMoodsOnHeap ⟨[demoLedger]⟩ 0 none none).2
      = listMoods (heapGet ⟨[demoLedger]⟩ 0) none none :=
  c10_theorem ⟨[demoLedger]⟩ 0 none none (by decide)

end MBCC
